import Mathlib

/-!
Verification of the DutyRefundsHelpFunc VAT/duty aggregation and settlement
engine.  The Python source works on pandas dataframes; here each table is a
`List` of typed records and every monetary amount is a rational number
(the specification treats amounts as fixed-point monetary values).  A pandas
column lookup into a dict (`Series.map`) that can miss is modelled with
`Option`; a pandas sum, which skips NaN entries, is modelled by summing the
mapped contributions with `0` for the missing ones at the point where the
source relies on that behaviour.
-/

/-- One raw line item, as supplied by the record source (after type
coercion): this mirrors the columns the processors read. -/
structure LineItem where
  mrn : String
  hsCode : String
  country : String
  qtyImported : ℚ
  qtyReturned : ℚ
  unitPrice : ℚ
  deriving DecidableEq, Repr

/-- A line item after the load-and-annotate step: the raw fields plus the
calculated columns Line Item Total Value, Consignment Value and VAT Rate
(`Option` because a country can be missing from the rate table; the source
leaves NaN there and prints a warning). -/
structure PrepRow where
  item : LineItem
  lineItemTotalValue : ℚ
  consignmentValue : ℚ
  vatRate : Option ℚ
  deriving DecidableEq, Repr

/-- One row of a processor-level table: the columns in
`Config.high_value_columns` (the low-value variant simply lacks HS CODE). -/
structure ProcRow where
  mrn : String
  hsCode : String
  country : String
  qtyImported : ℚ
  qtyReturned : ℚ
  unitPrice : ℚ
  consignmentValue : ℚ
  vatRate : ℚ
  deriving DecidableEq, Repr

/-- Output row of `calculate_vat_per_country`: Country, VAT Rate, Total
Consignment Value, Total VAT to Pay. -/
structure VatRow where
  country : String
  vatRate : ℚ
  totalConsignmentValue : ℚ
  totalVatToPay : ℚ
  deriving DecidableEq, Repr

/-- Output row of `calculate_return_vat_per_country`: Country, VAT Rate,
Total Returned Value, Total VAT Refund. -/
structure RetRow where
  country : String
  vatRate : ℚ
  totalReturnedValue : ℚ
  totalVatRefund : ℚ
  deriving DecidableEq, Repr

/-- Output row of `calculate_duty_for_returned_items`: Country, Total
Returned Value, Total Duty Returned. -/
structure DutyRow where
  country : String
  totalReturnedValue : ℚ
  totalDutyReturned : ℚ
  deriving DecidableEq, Repr

/-- Output row of `duty_vat_hv_merge`: Country, VAT Rate, Total Returned
Value, Total VAT Refund, Total Duty Returned, Total Refund. -/
structure MergedRow where
  country : String
  vatRate : ℚ
  totalReturnedValue : ℚ
  totalVatRefund : ℚ
  totalDutyReturned : ℚ
  totalRefund : ℚ
  deriving DecidableEq, Repr

/-- Output row of `create_combined_vat_per_country` (the OSS form table):
Country, VAT Rate, Total VAT to Pay, Total VAT Refund, NET VAT. -/
structure CombinedVatRow where
  country : String
  vatRate : ℚ
  totalVatToPay : ℚ
  totalVatRefund : ℚ
  netVat : ℚ
  deriving DecidableEq, Repr

/-- Keep the first occurrence of each element, dropping later duplicates:
the semantics of pandas key de-duplication (keep-first). -/
def dedupFirst {κ : Type} [DecidableEq κ] : List κ → List κ
  | [] => []
  | k :: ks => k :: (dedupFirst ks).filter (fun x => decide (x ≠ k))

/-- Membership is unchanged by `dedupFirst`. -/
theorem mem_dedupFirst {κ : Type} [DecidableEq κ] (l : List κ) (x : κ) :
    x ∈ dedupFirst l ↔ x ∈ l := by
  induction l with
  | nil => simp [dedupFirst]
  | cons k ks ih =>
    simp only [dedupFirst, List.mem_cons, List.mem_filter, decide_eq_true_eq]
    constructor
    · rintro (rfl | ⟨hx, _⟩)
      · exact Or.inl rfl
      · exact Or.inr (ih.mp hx)
    · rintro (rfl | hx)
      · exact Or.inl rfl
      · by_cases hk : x = k
        · exact Or.inl hk
        · exact Or.inr ⟨ih.mpr hx, hk⟩

/-- The result of `dedupFirst` has no duplicates. -/
theorem nodup_dedupFirst {κ : Type} [DecidableEq κ] (l : List κ) :
    (dedupFirst l).Nodup := by
  induction l with
  | nil => simp [dedupFirst]
  | cons k ks ih =>
    refine List.Nodup.cons ?_ (List.Nodup.filter _ ih)
    intro hk
    rcases List.mem_filter.mp hk with ⟨_, hne⟩
    exact (decide_eq_true_eq.mp hne) rfl

namespace Config

/-- Per-country VAT rates (`Config.VAT_RATES`). -/
def VAT_RATES : String → Option ℚ := fun c =>
  if c = "DE" then some 0.19 else if c = "PT" then some 0.23 else
  if c = "ES" then some 0.21 else if c = "IE" then some 0.23 else
  if c = "SE" then some 0.25 else if c = "NL" then some 0.21 else
  if c = "DK" then some 0.25 else if c = "FI" then some 0.255 else
  if c = "IT" then some 0.22 else if c = "AT" then some 0.20 else
  if c = "BE" then some 0.21 else if c = "EE" then some 0.22 else none

/-- Countries where duty cannot be reclaimed on returns
(`Config.DUTY_EXCLUDED_COUNTRIES`, the one-element list IE). -/
def DUTY_EXCLUDED_COUNTRIES : List String := ["IE"]

/-- Low value vs high value threshold (`Config.CONSIGNMENT_THRESHOLD = 150`). -/
def CONSIGNMENT_THRESHOLD : ℚ := 150

end Config

namespace DataLayer

/-- Embedding of `DataLayer.add_calculated_fields`: add the Line Item Total
Value column (quantity imported times unit price), the Consignment Value
column (groupby MRN, transform sum over the total-value column) and the VAT
Rate column (map of the country through the rate table). -/
def add_calculated_fields (vatRates : String → Option ℚ)
    (rows : List LineItem) : List PrepRow :=
  let totals := rows.map (fun r => (r, r.qtyImported * r.unitPrice))
  totals.map (fun p =>
    { item := p.1
      lineItemTotalValue := p.2
      consignmentValue :=
        ((totals.filter (fun q => q.1.mrn == p.1.mrn)).map (fun q => q.2)).sum
      vatRate := vatRates p.1.country })

/-- Embedding of `DataLayer.separate_data`: high value strictly above the
threshold, low value at or below it. -/
def separate_data (rows : List PrepRow) (threshold : ℚ) :
    List PrepRow × List PrepRow :=
  let high_value_df := rows.filter (fun r => decide (threshold < r.consignmentValue))
  let low_value_df := rows.filter (fun r => decide (r.consignmentValue ≤ threshold))
  (low_value_df, high_value_df)

end DataLayer

namespace DataProcessing

/-- Embedding of the Consignment Value computation in
`load_and_preprocess_data` (data_processing.py line 44): a groupby-MRN
transform sum **of the unit-price column alone**. -/
def consignment_value (rows : List LineItem) (m : String) : ℚ :=
  ((rows.filter (fun r => r.mrn == m)).map (fun r => r.unitPrice)).sum

/-- Embedding of `load_and_preprocess_data` (after the MRN cleaning that the
record source already guarantees): annotate each row with the Consignment
Value of line 44 and the mapped VAT rate. -/
def load_and_preprocess_data (vatRates : String → Option ℚ)
    (rows : List LineItem) : List PrepRow :=
  rows.map (fun r =>
    { item := r
      lineItemTotalValue := r.qtyImported * r.unitPrice
      consignmentValue := consignment_value rows r.mrn
      vatRate := vatRates r.country })

/-- Embedding of `separate_by_consignment_value`: the (low, high) pair of
filters; the source performs no validation of the threshold. -/
def separate_by_consignment_value (rows : List PrepRow) (threshold : ℚ) :
    List PrepRow × List PrepRow :=
  (rows.filter (fun r => decide (r.consignmentValue ≤ threshold)),
   rows.filter (fun r => decide (threshold < r.consignmentValue)))

end DataProcessing

namespace Services

/-- Embedding of the pandas drop-duplicates-by-MRN step: keep the first
row seen for each MRN. -/
def drop_duplicates_mrn : List ProcRow → List ProcRow
  | [] => []
  | r :: rs => r :: (drop_duplicates_mrn rs).filter (fun s => decide (s.mrn ≠ r.mrn))

/-- A row surviving de-duplication was in the input. -/
theorem mem_of_mem_drop_duplicates_mrn (rows : List ProcRow) (r : ProcRow)
    (h : r ∈ drop_duplicates_mrn rows) : r ∈ rows := by
  induction rows with
  | nil => simp [drop_duplicates_mrn] at h
  | cons a l ih =>
    rcases List.mem_cons.mp h with h1 | h2
    · exact h1 ▸ List.mem_cons_self a l
    · exact List.mem_cons_of_mem a (ih (List.mem_filter.mp h2).1)

/-- The MRNs of the de-duplicated rows are exactly the first occurrences of
the input MRNs. -/
theorem map_mrn_drop_duplicates_mrn (rows : List ProcRow) :
    (drop_duplicates_mrn rows).map (fun r => r.mrn)
      = dedupFirst (rows.map (fun r => r.mrn)) := by
  induction rows with
  | nil => rfl
  | cons a l ih =>
    simp only [drop_duplicates_mrn, List.map_cons, dedupFirst, List.cons.injEq,
      true_and]
    rw [← ih]
    induction (drop_duplicates_mrn l) with
    | nil => rfl
    | cons b m ihm =>
      by_cases hb : b.mrn = a.mrn
      · simpa [List.filter, hb] using ihm
      · simpa [List.filter, hb] using ihm

/-- Embedding of `Services.calculate_vat_per_country` (identical in
MainBusinessLogic/services.py and ProCarrier services.py): de-duplicate by
MRN, compute VAT Amount = Consignment Value x VAT Rate per unique
consignment, then group by (Country, VAT Rate) summing Consignment Value and
VAT Amount. -/
def calculate_vat_per_country (df : List ProcRow) : List VatRow :=
  let unique_consignments := drop_duplicates_mrn df
  let keys := dedupFirst (unique_consignments.map (fun r => (r.country, r.vatRate)))
  keys.map (fun k =>
    let g := unique_consignments.filter
      (fun r => decide ((r.country, r.vatRate) = k))
    { country := k.1
      vatRate := k.2
      totalConsignmentValue := (g.map (fun r => r.consignmentValue)).sum
      totalVatToPay := (g.map (fun r => r.consignmentValue * r.vatRate)).sum })

/-- Embedding of `Services.calculate_return_vat_per_country`: filter to rows
with returned quantity strictly positive, compute the per-line returned value
and VAT refund, then group by (Country, VAT Rate). -/
def calculate_return_vat_per_country (df : List ProcRow) : List RetRow :=
  let returned_df := df.filter (fun r => decide (0 < r.qtyReturned))
  let keys := dedupFirst (returned_df.map (fun r => (r.country, r.vatRate)))
  keys.map (fun k =>
    let g := returned_df.filter
      (fun r => decide ((r.country, r.vatRate) = k))
    { country := k.1
      vatRate := k.2
      totalReturnedValue := (g.map (fun r => r.qtyReturned * r.unitPrice)).sum
      totalVatRefund :=
        (g.map (fun r => r.qtyReturned * r.unitPrice * r.vatRate)).sum })

end Services

/-- Sum of an if-then-else indicator over a list without duplicates that
contains the selected key: only the selected key contributes. -/
theorem sum_ite_eq_of_nodup {κ : Type} [DecidableEq κ]
    (K : List κ) (k : κ) (c : ℚ) (hnd : K.Nodup) (hk : k ∈ K) :
    (K.map (fun x => if k = x then c else 0)).sum = c := by
  induction K with
  | nil => cases hk
  | cons a L ih =>
    rcases List.mem_cons.mp hk with rfl | hmem
    · have hz : (L.map (fun x => if k = x then c else 0)).sum = 0 := by
        apply List.sum_eq_zero
        intro y hy
        rcases List.mem_map.mp hy with ⟨x, hx, rfl⟩
        have hne : k ≠ x := fun h => (List.nodup_cons.mp hnd).1 (h ▸ hx)
        simp [hne]
      simp [hz]
    · have hka : k ≠ a := fun h => (List.nodup_cons.mp hnd).1 (h ▸ hmem)
      simp [hka, ih (List.nodup_cons.mp hnd).2 hmem]

/-- Summing a ℚ-valued function group-by-group over any duplicate-free key
list covering all keys gives the plain sum: the conservation law behind the
pandas groupby-sum aggregations. -/
theorem sum_fiberwise {α κ : Type} [DecidableEq κ]
    (l : List α) (key : α → κ) (f : α → ℚ) (K : List κ)
    (hnd : K.Nodup) (hcov : ∀ a ∈ l, key a ∈ K) :
    (K.map (fun k => ((l.filter (fun a => decide (key a = k))).map f).sum)).sum
      = (l.map f).sum := by
  induction l with
  | nil => simp [List.sum_eq_zero]
  | cons a l ih =>
    have hstep : ∀ k : κ,
        (((a :: l).filter (fun x => decide (key x = k))).map f).sum
          = (if key a = k then f a else 0)
            + ((l.filter (fun x => decide (key x = k))).map f).sum := by
      intro k
      by_cases h : key a = k
      · simp [List.filter, h]
      · simp [List.filter, h]
    calc (K.map (fun k => (((a :: l).filter (fun x => decide (key x = k))).map f).sum)).sum
        = (K.map (fun k => (if key a = k then f a else 0)
            + ((l.filter (fun x => decide (key x = k))).map f).sum)).sum := by
          simp only [hstep]
      _ = (K.map (fun k => if key a = k then f a else 0)).sum
            + (K.map (fun k => ((l.filter (fun x => decide (key x = k))).map f).sum)).sum := by
          rw [← List.sum_map_add]
      _ = f a + (l.map f).sum := by
          rw [sum_ite_eq_of_nodup K (key a) (f a) hnd (hcov a (List.mem_cons_self a l)),
            ih (fun x hx => hcov x (List.mem_cons_of_mem a hx))]
      _ = ((a :: l).map f).sum := by simp

/-- First 4 characters of a goods code (pandas `.astype(str).str[:4]`). -/
def take4 (s : String) : String := String.mk (s.data.take 4)

/-- Duty contribution of one returned line: returned value times the duty
rate mapped from the 4-character goods-code key.  When the key is absent the
pandas map yields NaN and the later groupby sum skips the row, so the
contribution is 0. -/
def duty_contribution (duty_dict : String → Option ℚ) (r : ProcRow) : ℚ :=
  match duty_dict (take4 r.hsCode) with
  | some rate => r.qtyReturned * r.unitPrice * rate
  | none => 0

namespace MainBusinessLogic

/-- Embedding of `HighValueProcessor.calculate_duty_for_returned_items`
(MainBusinessLogic variant, which applies NO country exclusion): filter to
returned rows, map duty rates by the 4-character goods-code key, compute the
per-line returned value and duty amount, group-sum by country, and also
return the grand total of Total Duty Returned. -/
def calculate_duty_for_returned_items (df : List ProcRow)
    (duty_dict : String → Option ℚ) : ℚ × List DutyRow :=
  let returned_df := df.filter (fun r => decide (0 < r.qtyReturned))
  let countries := dedupFirst (returned_df.map (fun r => r.country))
  let duty_by_country := countries.map (fun c =>
    let g := returned_df.filter (fun r => r.country == c)
    { country := c
      totalReturnedValue := (g.map (fun r => r.qtyReturned * r.unitPrice)).sum
      totalDutyReturned := (g.map (duty_contribution duty_dict)).sum : DutyRow })
  ((duty_by_country.map (fun d => d.totalDutyReturned)).sum, duty_by_country)

/-- Embedding of `HighValueProcessor.duty_vat_hv_merge` (MainBusinessLogic
variant): outer-join the VAT-refund table with the Country / Total Duty
Returned columns of the duty table, fill the missing side with 0, and set
Total Refund = Total VAT Refund + Total Duty Returned. -/
def duty_vat_hv_merge (vat_df : List RetRow) (duty_df : List DutyRow) :
    List MergedRow :=
  (vat_df.map (fun v =>
    let d := ((duty_df.find? (fun d => d.country == v.country)).map
      (fun d => d.totalDutyReturned)).getD 0
    { country := v.country
      vatRate := v.vatRate
      totalReturnedValue := v.totalReturnedValue
      totalVatRefund := v.totalVatRefund
      totalDutyReturned := d
      totalRefund := v.totalVatRefund + d }))
  ++ ((duty_df.filter
        (fun d => !(vat_df.any (fun v => v.country == d.country)))).map
      (fun d =>
        { country := d.country
          vatRate := 0
          totalReturnedValue := 0
          totalVatRefund := 0
          totalDutyReturned := d.totalDutyReturned
          totalRefund := 0 + d.totalDutyReturned }))

/-- Embedding of `HighValueProcessor.calculate_dr_revenue_from_hw_returns`:
Revenue = Total Refund x 0.30 for IE, x 0.20 otherwise, per row; the first
component is the summed total revenue, the second the (Country, Revenue)
table. -/
def calculate_dr_revenue_from_hw_returns (combined_refunds : List MergedRow) :
    ℚ × List (String × ℚ) :=
  let result_df := combined_refunds.map (fun row =>
    (row.country,
     if row.country = "IE" then row.totalRefund * 0.30
     else row.totalRefund * 0.20))
  ((result_df.map (fun p => p.2)).sum, result_df)

/-- Embedding of `LowValueProcessor.calculate_dr_revenue_from_lw_returns`:
Revenue = Total VAT Refund x 0.30 for IE, x 0.20 otherwise. -/
def calculate_dr_revenue_from_lw_returns (return_vat_per_country : List RetRow) :
    ℚ × List (String × ℚ) :=
  let result_df := return_vat_per_country.map (fun row =>
    (row.country,
     if row.country = "IE" then row.totalVatRefund * 0.30
     else row.totalVatRefund * 0.20))
  ((result_df.map (fun p => p.2)).sum, result_df)

/-- Embedding of the PC_return computation in
`LowValueProcessor.process_low_value_data` (line 30): the counterparty share
is the total VAT refund minus the DR revenue, i.e. it is computed as the
remainder. -/
def lv_pc_return (return_vat_per_country : List RetRow) : ℚ :=
  (return_vat_per_country.map (fun r => r.totalVatRefund)).sum
    - (calculate_dr_revenue_from_lw_returns return_vat_per_country).1

end MainBusinessLogic

namespace ProCarrier

/-- Embedding of `HighValueProcessor.calculate_duty_for_returned_items`
(ProCarrier variant): same as the MainBusinessLogic computation but rows
whose Consignee Country is in `DUTY_EXCLUDED_COUNTRIES` are removed before
any duty is computed, and only the per-country table is returned. -/
def calculate_duty_for_returned_items (df : List ProcRow)
    (duty_dict : String → Option ℚ) : List DutyRow :=
  let returned_df := df.filter (fun r => decide (0 < r.qtyReturned))
  let returned_df := returned_df.filter
    (fun r => !(Config.DUTY_EXCLUDED_COUNTRIES.contains r.country))
  let countries := dedupFirst (returned_df.map (fun r => r.country))
  countries.map (fun c =>
    let g := returned_df.filter (fun r => r.country == c)
    { country := c
      totalReturnedValue := (g.map (fun r => r.qtyReturned * r.unitPrice)).sum
      totalDutyReturned := (g.map (duty_contribution duty_dict)).sum })

end ProCarrier

/-- One display row of the summary table written by
`generate_summary_table`: Section label and Amount (none for the blank
spacer rows whose Amount cell is the string " ").  The per-row Description
column of the source is pure presentation text and is not modelled. -/
structure SummaryRow where
  section_ : String
  amount : Option ℚ
  deriving DecidableEq, Repr

/-- The aggregate inputs of `generate_summary_table`
(ProCarrier/ProCarrierService/code/main.py): the dict passed in by
`process_data`. -/
structure SummaryData where
  import_ioss : ℚ
  return_ioss : ℚ
  lv_dr_fee : ℚ
  vat_paid_during_import_to_nl : ℚ
  vat_to_return_from_nl_for_import : ℚ
  oss_hv_vat_df : List CombinedVatRow
  ie_refunds : List RetRow
  nl_refunds : List MergedRow
  deriving Repr

namespace ProCarrier

/-- Embedding of `generate_summary_table`
(ProCarrier/ProCarrierService/code/main.py lines 13-111): compute the net
IOSS and net OSS positions, the broker figures, the HV VAT/duty returns, the
DR commission and the two settlement amounts, and lay them out as the
INFORMATION.xlsx rows. -/
def generate_summary_table (data : SummaryData) : List SummaryRow :=
  let ioss_sales := data.import_ioss
  let ioss_vat_to_return := data.return_ioss
  let net_ioss := ioss_sales - ioss_vat_to_return
  let lv_dr_fee := data.lv_dr_fee
  let value_broker_paid_during_import := data.vat_paid_during_import_to_nl
  let value_to_return_from_nl_for_import := data.vat_to_return_from_nl_for_import
  let hv_oss_import_vat := (data.oss_hv_vat_df.map (fun r => r.totalVatToPay)).sum
  let hv_oss_return_vat := (data.oss_hv_vat_df.map (fun r => r.totalVatRefund)).sum
  let net_oss := hv_oss_import_vat - hv_oss_return_vat
  let nl_vat_returns := (data.nl_refunds.map (fun r => r.totalVatRefund)).sum
  let nl_duty_returns := (data.nl_refunds.map (fun r => r.totalDutyReturned)).sum
  let ie_vat_returns := (data.ie_refunds.map (fun r => r.totalVatRefund)).sum
  let dr_fee :=
    ((nl_duty_returns + nl_vat_returns) * 0.2) + (ie_vat_returns * 0.3) + lv_dr_fee
  let invoice_amount := net_ioss + net_oss + dr_fee
  let pc_return_amount :=
    nl_duty_returns + ie_vat_returns + nl_vat_returns
      + value_to_return_from_nl_for_import
  [ { section_ := "TOTAL IOSS VAT", amount := some ioss_sales },
    { section_ := "RETURNED IOSS VAT", amount := some ioss_vat_to_return },
    { section_ := "NET IOSS VAT", amount := some net_ioss },
    { section_ := " ", amount := none },
    { section_ := "AMOUNT BROKER PAID", amount := some value_broker_paid_during_import },
    { section_ := "AMOUNT THAT CAN BE CLAIMED BACK",
      amount := some value_to_return_from_nl_for_import },
    { section_ := " ", amount := none },
    { section_ := "OSS import VAT paid", amount := some hv_oss_import_vat },
    { section_ := "OSS return VAT", amount := some hv_oss_return_vat },
    { section_ := "NET OSS VAT", amount := some net_oss },
    { section_ := " ", amount := none },
    { section_ := "Total VAT Refund From HV",
      amount := some (ie_vat_returns + nl_vat_returns) },
    { section_ := "Total Duty Returned", amount := some nl_duty_returns },
    { section_ := "Total Refunds",
      amount := some (nl_duty_returns + ie_vat_returns + nl_vat_returns) },
    { section_ := " ", amount := none },
    { section_ := "Duty Refunds Commission", amount := some dr_fee },
    { section_ := " ", amount := none },
    { section_ := "Amount to invoice Pro Carrier:", amount := some invoice_amount },
    { section_ := "Amount to be paid to Pro Carrier:", amount := some pc_return_amount } ]

/-- Amount shown in a summary table for a given Section label. -/
def amountFor (table : List SummaryRow) (sec : String) : Option ℚ :=
  (table.find? (fun r => r.section_ == sec)).bind (fun r => r.amount)

end ProCarrier

namespace TedBaker

/-- One row of the customs tariff export that `process_duty_data` reads:
Goods code, Origin and the textual Duty field. -/
structure TariffRow where
  goodsCode : String
  origin : String
  duty : String
  deriving DecidableEq, Repr

/-- Maximum of the duty rates of the ERGA OMNES tariff rows whose
goods-code prefix is the given key, ignoring unparseable rows (pandas
groupby-max of the parsed Duty-rate column skips NaN); `none` when no row
of the group parses, matching the subsequent `dropna()`. -/
def max_duty (parse_duty_rate : String → Option ℚ) (erga : List TariffRow)
    (k : String) : Option ℚ :=
  match (erga.filter (fun r => take4 r.goodsCode == k)).filterMap
      (fun r => parse_duty_rate r.duty) with
  | [] => none
  | x :: xs => some (xs.foldl max x)

/-- Embedding of `DutyProcessor.process_duty_data`: restrict the tariff
export to rows with Origin ERGA OMNES, parse each Duty string through the
supplied parser (the regex parser `parse_duty_rate` is the collaborator the
specification leaves outside the core, so it is a parameter here), and map
each 4-character goods-code prefix to the maximum parsed rate of its group;
groups with no parseable rate are dropped, not stored as zero. -/
def process_duty_data (parse_duty_rate : String → Option ℚ)
    (df : List TariffRow) : List (String × ℚ) :=
  let erga := df.filter (fun r => r.origin == "ERGA OMNES")
  let keys := dedupFirst (erga.map (fun r => take4 r.goodsCode))
  keys.filterMap (fun k => (max_duty parse_duty_rate erga k).map (fun v => (k, v)))

/-- Lookup in the duty dictionary produced by `process_duty_data` (a Python
dict keyed by the 4-character goods-code prefix). -/
def duty_dict_get (d : List (String × ℚ)) (k : String) : Option ℚ :=
  (d.find? (fun p => p.1 == k)).map (fun p => p.2)

end TedBaker

/-- Mapping rows to (row, derived value) pairs, filtering on a property of
the row and projecting the derived value is the same as filtering the rows
and mapping the derivation. -/
theorem map_snd_filter_fst {α β : Type} (rows : List α) (g : α → β) (pr : α → Bool) :
    ((rows.map (fun r => (r, g r))).filter (fun q => pr q.1)).map (fun q => q.2)
      = (rows.filter pr).map g := by
  induction rows with
  | nil => rfl
  | cons a l ih =>
    by_cases h : pr a
    · simp [List.filter_cons, h, ih]
    · simp [List.filter_cons, h, ih]

/-- Pointwise equal functions give equal maps. -/
theorem map_congr_fun {α β : Type} (l : List α) (f g : α → β)
    (h : ∀ a ∈ l, f a = g a) : l.map f = l.map g := by
  induction l with
  | nil => rfl
  | cons a t ih =>
    simp only [List.map_cons, h a (List.mem_cons_self a t),
      ih (fun x hx => h x (List.mem_cons_of_mem a hx))]

/-- Filtering by a predicate and by its boolean negation splits the length
of a list exactly. -/
theorem length_filter_add_length_filter_not {α : Type} (l : List α) (p : α → Bool) :
    (l.filter p).length + (l.filter (fun a => !(p a))).length = l.length := by
  induction l with
  | nil => rfl
  | cons a t ih =>
    by_cases h : p a <;> simp only [List.filter_cons, h] <;> simp <;> omega

/-- Every row annotated by `add_calculated_fields` carries the Consignment
Value equal to the sum of quantity imported times unit price over ALL line
items sharing its MRN. -/
theorem add_calculated_fields_consignment_value (vatRates : String → Option ℚ)
    (rows : List LineItem) :
    ∀ p ∈ DataLayer.add_calculated_fields vatRates rows,
      p.consignmentValue
        = ((rows.filter (fun q => q.mrn == p.item.mrn)).map
            (fun q => q.qtyImported * q.unitPrice)).sum := by
  intro p hp
  simp only [DataLayer.add_calculated_fields] at hp
  rcases List.mem_map.mp hp with ⟨q, hq, rfl⟩
  exact congrArg List.sum (map_snd_filter_fst rows
    (fun r => r.qtyImported * r.unitPrice) (fun s => s.mrn == q.1.mrn))

/-- C3 (amended, DataLayer variant): every row annotated by
`add_calculated_fields` carries the Consignment Value equal to the sum of
quantity imported times unit price over ALL line items sharing its MRN, not
merely the sum of unit prices and not only the representative row value. -/
theorem C3_data_layer_consignment_value (vatRates : String → Option ℚ)
    (rows : List LineItem) :
    ∀ p ∈ DataLayer.add_calculated_fields vatRates rows,
      p.consignmentValue
        = ((rows.filter (fun q => q.mrn == p.item.mrn)).map
            (fun q => q.qtyImported * q.unitPrice)).sum :=
  add_calculated_fields_consignment_value vatRates rows

/-- Concrete line item used to separate the two Consignment Value variants:
two units imported at unit price 10. -/
def c3row : LineItem :=
  { mrn := "M1", hsCode := "61091000", country := "DE",
    qtyImported := 2, qtyReturned := 0, unitPrice := 10 }

/-- C3 counterexample: the data_processing.py loader assigns Consignment
Value 10 (the sum of unit prices) to a line with 2 units at price 10, while
the claimed value, the sum of quantity imported times unit price over all
lines of the MRN, is 20. -/
theorem C3_counterexample :
    (DataProcessing.load_and_preprocess_data Config.VAT_RATES [c3row]).map
        (fun p => p.consignmentValue) = [10]
    ∧ (([c3row].filter (fun q => q.mrn == c3row.mrn)).map
        (fun q => q.qtyImported * q.unitPrice)).sum = 20
    ∧ (10 : ℚ) ≠ 20 := by
  refine ⟨?_, ?_, by norm_num⟩
  · norm_num [DataProcessing.load_and_preprocess_data,
      DataProcessing.consignment_value, c3row]
  · norm_num [c3row]

/-- C9 (amended): the classifier performs no validation of the threshold;
called with any threshold at most 0 it still totally computes and returns
the usual partition: sizes add up and a row lands on the low side exactly
when its value is at most the threshold, on the high side exactly when its
value exceeds it. -/
theorem C9_threshold_not_validated (rows : List PrepRow) (t : ℚ) (_ht : t ≤ 0) :
    (DataProcessing.separate_by_consignment_value rows t).1.length
        + (DataProcessing.separate_by_consignment_value rows t).2.length
      = rows.length
    ∧ ∀ r ∈ rows,
        (r ∈ (DataProcessing.separate_by_consignment_value rows t).1
            ↔ r.consignmentValue ≤ t)
        ∧ (r ∈ (DataProcessing.separate_by_consignment_value rows t).2
            ↔ t < r.consignmentValue) := by
  have hpt : ∀ r : PrepRow,
      (decide (t < r.consignmentValue)) = !(decide (r.consignmentValue ≤ t)) := by
    intro r
    rw [← decide_not]
    exact decide_eq_decide.mpr not_le.symm
  constructor
  · simp only [DataProcessing.separate_by_consignment_value, hpt]
    exact length_filter_add_length_filter_not rows
      (fun r => decide (r.consignmentValue ≤ t))
  · intro r hr
    constructor
    · simp [DataProcessing.separate_by_consignment_value, List.mem_filter, hr]
    · simp [DataProcessing.separate_by_consignment_value, List.mem_filter, hr]

/-- Concrete annotated row with Consignment Value 100. -/
def c9row : PrepRow :=
  { item := { mrn := "M2", hsCode := "61091000", country := "DE",
              qtyImported := 1, qtyReturned := 0, unitPrice := 100 }
    lineItemTotalValue := 100
    consignmentValue := 100
    vatRate := some 0.19 }

/-- C9 witness: at the concrete threshold -1 the classifier still returns
the complete partition of a one-row input. -/
theorem C9_threshold_not_validated_witness :
    (-1 : ℚ) ≤ 0
    ∧ (DataProcessing.separate_by_consignment_value [c9row] (-1)).1.length
        + (DataProcessing.separate_by_consignment_value [c9row] (-1)).2.length
      = [c9row].length :=
  ⟨by norm_num, (C9_threshold_not_validated [c9row] (-1) (by norm_num)).1⟩

/-- C9 counterexample: invoked with threshold 0 on a row of value 100 the
classification is not rejected and does not fail at entry; it returns the
partition with the empty low side and the row on the high side. -/
theorem C9_counterexample :
    DataProcessing.separate_by_consignment_value [c9row] 0 = ([], [c9row]) := by
  norm_num [DataProcessing.separate_by_consignment_value, c9row]

/-- Two line items sharing MRN M1: quantities 2 and 3 at prices 10 and 5. -/
def c3rows : List LineItem :=
  [c3row,
   { mrn := "M1", hsCode := "62051000", country := "DE",
     qtyImported := 3, qtyReturned := 0, unitPrice := 5 }]

/-- The first annotated row the DataLayer produces for `c3rows`:
Consignment Value 2 * 10 + 3 * 5 = 35. -/
def c3prep : PrepRow :=
  { item := c3row
    lineItemTotalValue := 20
    consignmentValue := 35
    vatRate := some 0.19 }

/-- C3 witness: the DataLayer theorem applied to the concrete two-line
consignment. -/
theorem C3_data_layer_consignment_value_witness :
    c3prep.consignmentValue
      = ((c3rows.filter (fun q => q.mrn == c3prep.item.mrn)).map
          (fun q => q.qtyImported * q.unitPrice)).sum :=
  C3_data_layer_consignment_value Config.VAT_RATES c3rows c3prep
    (by norm_num [DataLayer.add_calculated_fields, c3rows, c3row, c3prep,
      Config.VAT_RATES])

/-- C5 (as claimed): the revenue splitters compute the per-row revenue as
the refund times the commission rate, 0.30 for IE and 0.20 for every other
country; the per-row counterparty remainder restores the refund exactly; and
at the aggregate level the low-value DR revenue plus the PC return (which
the source computes as the remainder) is exactly the total VAT refund. -/
theorem C5_revenue_split (hv : List MergedRow) (lv : List RetRow) :
    ((MainBusinessLogic.calculate_dr_revenue_from_hw_returns hv).2
        = hv.map (fun row => (row.country,
            row.totalRefund * (if row.country = "IE" then 0.30 else 0.20))))
    ∧ (∀ row ∈ hv,
        row.totalRefund * (if row.country = "IE" then 0.30 else 0.20)
          + (row.totalRefund
              - row.totalRefund * (if row.country = "IE" then 0.30 else 0.20))
          = row.totalRefund)
    ∧ ((MainBusinessLogic.calculate_dr_revenue_from_lw_returns lv).2
        = lv.map (fun row => (row.country,
            row.totalVatRefund * (if row.country = "IE" then 0.30 else 0.20))))
    ∧ ((MainBusinessLogic.calculate_dr_revenue_from_lw_returns lv).1
          + MainBusinessLogic.lv_pc_return lv
        = (lv.map (fun r => r.totalVatRefund)).sum) := by
  refine ⟨?_, fun row _ => by ring, ?_, ?_⟩
  · simp only [MainBusinessLogic.calculate_dr_revenue_from_hw_returns]
    exact map_congr_fun hv _ _ (fun row _ => by
      by_cases h : row.country = "IE" <;> simp [h])
  · simp only [MainBusinessLogic.calculate_dr_revenue_from_lw_returns]
    exact map_congr_fun lv _ _ (fun row _ => by
      by_cases h : row.country = "IE" <;> simp [h])
  · simp only [MainBusinessLogic.lv_pc_return]
    ring

/-- C5 witness: a one-row IE refund table with Total Refund 13.80, matching
the worked example of the specification (commission 4.14). -/
theorem C5_revenue_split_witness :
    ((MainBusinessLogic.calculate_dr_revenue_from_hw_returns
        [{ country := "IE", vatRate := 0.23, totalReturnedValue := 60,
           totalVatRefund := 13.80, totalDutyReturned := 0,
           totalRefund := 13.80 }]).2
      = [("IE", (13.80 : ℚ) * 0.30)]) := by
  have h := (C5_revenue_split
    [{ country := "IE", vatRate := 0.23, totalReturnedValue := 60,
       totalVatRefund := 13.80, totalDutyReturned := 0, totalRefund := 13.80 }]
    []).1
  simpa using h

/-- C2 (amended, ProCarrier variant): the ProCarrier duty computation
removes every row of a duty-excluded country before any duty is calculated,
so no output row carries a duty-excluded country and the Total Duty Returned
attributed to IE is 0. -/
theorem C2_procarrier_excludes_ie (df : List ProcRow)
    (duty_dict : String → Option ℚ) :
    (∀ d ∈ ProCarrier.calculate_duty_for_returned_items df duty_dict,
        d.country ∉ Config.DUTY_EXCLUDED_COUNTRIES)
    ∧ (((ProCarrier.calculate_duty_for_returned_items df duty_dict).filter
          (fun d => d.country == "IE")).map (fun d => d.totalDutyReturned)).sum
        = 0 := by
  have h1 : ∀ d ∈ ProCarrier.calculate_duty_for_returned_items df duty_dict,
      d.country ∉ Config.DUTY_EXCLUDED_COUNTRIES := by
    intro d hd
    simp only [ProCarrier.calculate_duty_for_returned_items] at hd
    rcases List.mem_map.mp hd with ⟨c, hc, rfl⟩
    rcases List.mem_map.mp ((mem_dedupFirst _ _).mp hc) with ⟨r, hr, rfl⟩
    rcases List.mem_filter.mp hr with ⟨_, hnot⟩
    rw [Bool.not_eq_true'] at hnot
    intro hmem
    have hmem2 : r.country ∈ Config.DUTY_EXCLUDED_COUNTRIES := hmem
    have hcon : Config.DUTY_EXCLUDED_COUNTRIES.contains r.country = true := by
      have helem := List.elem_iff.mpr hmem2
      simpa [List.contains] using helem
    rw [hcon] at hnot
    cases hnot
  refine ⟨h1, ?_⟩
  have h2 : (ProCarrier.calculate_duty_for_returned_items df duty_dict).filter
      (fun d => d.country == "IE") = [] := by
    rw [List.filter_eq_nil_iff]
    intro d hd
    have := h1 d hd
    simp only [Config.DUTY_EXCLUDED_COUNTRIES, List.mem_singleton] at this
    simp [this]
  rw [h2]
  rfl

/-- Concrete returned IE line: 2 of 5 units returned at unit price 30,
goods code mapped at duty rate 0.12. -/
def c2row : ProcRow :=
  { mrn := "M1", hsCode := "61091000", country := "IE", qtyImported := 5,
    qtyReturned := 2, unitPrice := 30, consignmentValue := 300, vatRate := 0.23 }

/-- Duty dictionary mapping the goods-code prefix 6109 to rate 0.12. -/
def c2duty : String → Option ℚ := fun s => if s = "6109" then some 0.12 else none

/-- C2 counterexample: the MainBusinessLogic variant of
`calculate_duty_for_returned_items` applies no exclusion, so the IE row of
its per-country duty-refund result carries Total Duty Returned
60 * 0.12 = 7.2, not 0. -/
theorem C2_counterexample :
    (MainBusinessLogic.calculate_duty_for_returned_items [c2row] c2duty).2
      = [{ country := "IE", totalReturnedValue := 60, totalDutyReturned := 36/5 }]
    ∧ (36/5 : ℚ) ≠ 0 := by
  constructor
  · norm_num [MainBusinessLogic.calculate_duty_for_returned_items, dedupFirst,
      duty_contribution, take4, c2row, c2duty]
  · norm_num

/-- C2 witness: the ProCarrier exclusion theorem applied to the same
concrete IE input: the IE duty sum of its table is 0. -/
theorem C2_procarrier_excludes_ie_witness :
    (((ProCarrier.calculate_duty_for_returned_items [c2row] c2duty).filter
        (fun d => d.country == "IE")).map (fun d => d.totalDutyReturned)).sum
      = 0 :=
  (C2_procarrier_excludes_ie [c2row] c2duty).2

/-- Rows produced by `add_calculated_fields` that share an MRN share their
Consignment Value: it is a groupby-MRN transform, determined by the MRN. -/
theorem add_calculated_fields_value_mrn_determined
    (vatRates : String → Option ℚ) (raw : List LineItem) :
    ∀ p ∈ DataLayer.add_calculated_fields vatRates raw,
      ∀ p2 ∈ DataLayer.add_calculated_fields vatRates raw,
        p.item.mrn = p2.item.mrn → p.consignmentValue = p2.consignmentValue := by
  intro p hp p2 hp2 hmrn
  rw [add_calculated_fields_consignment_value vatRates raw p hp,
    add_calculated_fields_consignment_value vatRates raw p2 hp2, hmrn]

/-- C4: for every preprocessed input set, the threshold-150 classification
is a partition: a row is on the low side exactly when its consignment value
is at most 150 and on the high side exactly when it exceeds 150, each row is
on exactly one side, sizes add up, and the consignment references of the two
sides together are exactly those of the input while no reference appears on
both sides. -/
theorem C4_partition (vatRates : String → Option ℚ) (raw : List LineItem)
    (prep low high : List PrepRow)
    (hprep : prep = DataLayer.add_calculated_fields vatRates raw)
    (hsep : (low, high) = DataLayer.separate_data prep Config.CONSIGNMENT_THRESHOLD) :
    (∀ r ∈ prep,
        (r ∈ low ↔ r.consignmentValue ≤ 150)
      ∧ (r ∈ high ↔ 150 < r.consignmentValue)
      ∧ ((r ∈ low) ↔ ¬(r ∈ high)))
    ∧ low.length + high.length = prep.length
    ∧ (∀ m : String,
        ((∃ r ∈ prep, r.item.mrn = m)
          ↔ (∃ r ∈ low, r.item.mrn = m) ∨ (∃ r ∈ high, r.item.mrn = m))
      ∧ ¬((∃ r ∈ low, r.item.mrn = m) ∧ (∃ r ∈ high, r.item.mrn = m))) := by
  have hpair := hsep
  simp only [DataLayer.separate_data, Config.CONSIGNMENT_THRESHOLD,
    Prod.mk.injEq] at hpair
  obtain ⟨hlow, hhigh⟩ := hpair
  have hmemlow : ∀ r : PrepRow, r ∈ low ↔ r ∈ prep ∧ r.consignmentValue ≤ 150 := by
    intro r
    rw [hlow]
    simp [List.mem_filter]
  have hmemhigh : ∀ r : PrepRow, r ∈ high ↔ r ∈ prep ∧ 150 < r.consignmentValue := by
    intro r
    rw [hhigh]
    simp [List.mem_filter]
  refine ⟨?_, ?_, ?_⟩
  · intro r hr
    refine ⟨by simp [hmemlow, hr], by simp [hmemhigh, hr], ?_⟩
    simp only [hmemlow, hmemhigh, hr, true_and]
    exact ⟨fun h => by simpa using not_lt.mpr h, fun h => not_lt.mp (by simpa using h)⟩
  · have hpt : ∀ r : PrepRow,
        (decide (150 < r.consignmentValue)) = !(decide (r.consignmentValue ≤ 150)) := by
      intro r
      rw [← decide_not]
      exact decide_eq_decide.mpr not_le.symm
    rw [hlow, hhigh]
    simp only [hpt]
    exact length_filter_add_length_filter_not prep
      (fun r => decide (r.consignmentValue ≤ 150))
  · intro m
    constructor
    · constructor
      · rintro ⟨r, hr, rfl⟩
        rcases le_or_lt r.consignmentValue 150 with hle | hgt
        · exact Or.inl ⟨r, (hmemlow r).mpr ⟨hr, hle⟩, rfl⟩
        · exact Or.inr ⟨r, (hmemhigh r).mpr ⟨hr, hgt⟩, rfl⟩
      · rintro (⟨r, hr, rfl⟩ | ⟨r, hr, rfl⟩)
        · exact ⟨r, ((hmemlow r).mp hr).1, rfl⟩
        · exact ⟨r, ((hmemhigh r).mp hr).1, rfl⟩
    · rintro ⟨⟨r1, hr1, rfl⟩, ⟨r2, hr2, hm2⟩⟩
      obtain ⟨hr1p, hr1le⟩ := (hmemlow r1).mp hr1
      obtain ⟨hr2p, hr2gt⟩ := (hmemhigh r2).mp hr2
      have hveq : r2.consignmentValue = r1.consignmentValue := by
        subst hprep
        exact add_calculated_fields_value_mrn_determined vatRates raw r2 hr2p r1 hr1p hm2
      rw [hveq] at hr2gt
      exact absurd hr1le (not_le.mpr hr2gt)

/-- C4 witness: the single-line consignment of value 20 lands, complete, on
the low side at threshold 150, and the partition sizes add up. -/
theorem C4_partition_witness :
    [({ item := c3row, lineItemTotalValue := 20, consignmentValue := 20,
        vatRate := some 0.19 } : PrepRow)].length + ([] : List PrepRow).length
      = (DataLayer.add_calculated_fields Config.VAT_RATES [c3row]).length :=
  (C4_partition Config.VAT_RATES [c3row]
    (DataLayer.add_calculated_fields Config.VAT_RATES [c3row])
    [{ item := c3row, lineItemTotalValue := 20, consignmentValue := 20,
       vatRate := some 0.19 }] [] rfl (by
      norm_num [DataLayer.separate_data, DataLayer.add_calculated_fields,
        Config.CONSIGNMENT_THRESHOLD, Config.VAT_RATES, c3row])).2.1

/-- C7: whenever all rows sharing an MRN carry the same Consignment Value
and VAT Rate (given by the functions cv and vr of the MRN), the sum of Total
VAT to Pay over the VAT-due aggregation equals the sum, over the distinct
consignment references of the input, of consignment value times VAT rate:
deduplication followed by (country, rate) grouping loses no value and double
counts none. -/
theorem C7_vat_due_conservation (rows : List ProcRow) (cv vr : String → ℚ)
    (hcv : ∀ r ∈ rows, r.consignmentValue = cv r.mrn)
    (hvr : ∀ r ∈ rows, r.vatRate = vr r.mrn) :
    ((Services.calculate_vat_per_country rows).map (fun s => s.totalVatToPay)).sum
      = ((dedupFirst (rows.map (fun r => r.mrn))).map (fun m => cv m * vr m)).sum := by
  have h1 : ((Services.calculate_vat_per_country rows).map
        (fun s => s.totalVatToPay)).sum
      = ((Services.drop_duplicates_mrn rows).map
          (fun r => r.consignmentValue * r.vatRate)).sum := by
    simp only [Services.calculate_vat_per_country, List.map_map]
    exact sum_fiberwise (Services.drop_duplicates_mrn rows)
      (fun r => (r.country, r.vatRate)) (fun r => r.consignmentValue * r.vatRate)
      (dedupFirst ((Services.drop_duplicates_mrn rows).map
        (fun r => (r.country, r.vatRate))))
      (nodup_dedupFirst _)
      (fun a ha => (mem_dedupFirst _ _).mpr (List.mem_map_of_mem _ ha))
  have h2 : ((Services.drop_duplicates_mrn rows).map
        (fun r => r.consignmentValue * r.vatRate)).sum
      = ((Services.drop_duplicates_mrn rows).map
          (fun r => cv r.mrn * vr r.mrn)).sum := by
    refine congrArg List.sum (map_congr_fun _ _ _ ?_)
    intro r hr
    have hrr := Services.mem_of_mem_drop_duplicates_mrn rows r hr
    rw [hcv r hrr, hvr r hrr]
  have h3 : ((Services.drop_duplicates_mrn rows).map
        (fun r => cv r.mrn * vr r.mrn)).sum
      = ((dedupFirst (rows.map (fun r => r.mrn))).map (fun m => cv m * vr m)).sum := by
    rw [← Services.map_mrn_drop_duplicates_mrn, List.map_map]
    rfl
  rw [h1, h2, h3]

/-- Three processor rows: the consignment A appears twice (value 100, rate
0.19, country DE) and the consignment B once (value 300, rate 0.23, IE). -/
def c7rows : List ProcRow :=
  [{ mrn := "A", hsCode := "61091000", country := "DE", qtyImported := 1,
     qtyReturned := 0, unitPrice := 40, consignmentValue := 100, vatRate := 0.19 },
   { mrn := "A", hsCode := "62051000", country := "DE", qtyImported := 2,
     qtyReturned := 0, unitPrice := 30, consignmentValue := 100, vatRate := 0.19 },
   { mrn := "B", hsCode := "61091000", country := "IE", qtyImported := 2,
     qtyReturned := 0, unitPrice := 150, consignmentValue := 300, vatRate := 0.23 }]

/-- C7 witness: on the concrete table with a duplicated MRN the aggregated
VAT-due sum equals the per-consignment sum. -/
theorem C7_vat_due_conservation_witness :
    ((Services.calculate_vat_per_country c7rows).map (fun s => s.totalVatToPay)).sum
      = ((dedupFirst (c7rows.map (fun r => r.mrn))).map
          (fun m => (if m = "A" then (100 : ℚ) else 300)
            * (if m = "A" then (0.19 : ℚ) else 0.23))).sum :=
  C7_vat_due_conservation c7rows
    (fun m => if m = "A" then 100 else 300)
    (fun m => if m = "A" then 0.19 else 0.23)
    (by
      intro r hr
      simp only [c7rows, List.mem_cons, List.not_mem_nil, or_false] at hr
      rcases hr with rfl | rfl | rfl <;> norm_num <;> simp)
    (by
      intro r hr
      simp only [c7rows, List.mem_cons, List.not_mem_nil, or_false] at hr
      rcases hr with rfl | rfl | rfl <;> norm_num <;> simp)

/-- Total Duty Returned attributed to a country in a duty-by-country table
(0 when the country has no row). -/
def dutyReturnedFor (tbl : List DutyRow) (c : String) : ℚ :=
  ((tbl.filter (fun d => d.country == c)).map (fun d => d.totalDutyReturned)).sum

/-- Boolean country comparison is the decidable equality on countries. -/
theorem country_beq_eq_decide (c : String) :
    (fun r : ProcRow => r.country == c) = (fun r => decide (r.country = c)) := by
  funext r
  by_cases h : r.country = c <;> simp [h]

/-- Filtering a duplicate-free list for one key keeps exactly that key when
present. -/
theorem filter_beq_of_nodup (l : List String) (hnd : l.Nodup) (c : String) :
    l.filter (fun k => k == c) = if c ∈ l then [c] else [] := by
  induction l with
  | nil => simp
  | cons a t ih =>
    by_cases hac : a = c
    · subst hac
      have hnt : a ∉ t := (List.nodup_cons.mp hnd).1
      have ht : t.filter (fun k => k == a) = [] := by
        rw [List.filter_eq_nil_iff]
        intro x hx hbeq
        exact hnt ((beq_iff_eq.mp hbeq) ▸ hx)
      simp [List.filter_cons, ht]
    · have hbeq : (a == c) = false := beq_eq_false_iff_ne.mpr hac
      have hmem : (c ∈ a :: t) ↔ (c ∈ t) := by
        constructor
        · intro h
          rcases List.mem_cons.mp h with h1 | h1
          · exact absurd h1.symm hac
          · exact h1
        · exact fun h => List.mem_cons_of_mem a h
      simp only [List.filter_cons, hbeq, Bool.false_eq_true, if_false,
        ih (List.nodup_cons.mp hnd).2]
      exact (if_congr hmem rfl rfl).symm

namespace MainBusinessLogic

/-- Per-country reading of `calculate_duty_for_returned_items`: the Total
Duty Returned attributed to a country is the summed duty contribution of the
returned rows of that country. -/
theorem dutyReturnedFor_calc (df : List ProcRow) (duty_dict : String → Option ℚ)
    (c : String) :
    dutyReturnedFor ((calculate_duty_for_returned_items df duty_dict).2) c
      = (((df.filter (fun r => decide (0 < r.qtyReturned))).filter
            (fun r => r.country == c)).map (duty_contribution duty_dict)).sum := by
  simp only [calculate_duty_for_returned_items, dutyReturnedFor]
  rw [List.filter_map]
  have hcomp :
      ((fun d : DutyRow => d.country == c) ∘ (fun k =>
        ({ country := k,
           totalReturnedValue :=
             (((df.filter (fun r => decide (0 < r.qtyReturned))).filter
                (fun r => r.country == k)).map
              (fun r => r.qtyReturned * r.unitPrice)).sum,
           totalDutyReturned :=
             (((df.filter (fun r => decide (0 < r.qtyReturned))).filter
                (fun r => r.country == k)).map
              (duty_contribution duty_dict)).sum } : DutyRow)))
        = fun k => k == c := rfl
  rw [hcomp, filter_beq_of_nodup _ (nodup_dedupFirst _) c]
  by_cases hc : c ∈ dedupFirst ((df.filter
      (fun r => decide (0 < r.qtyReturned))).map (fun r => r.country))
  · simp only [hc, if_true, List.map_cons, List.map_nil, List.sum_cons,
      List.sum_nil, add_zero]
  · simp only [hc, if_false, List.map_nil, List.sum_nil]
    have hnot : ∀ r ∈ df.filter (fun r => decide (0 < r.qtyReturned)),
        ¬(r.country == c) = true := by
      intro r hr hbeq
      exact hc ((mem_dedupFirst _ _).mpr
        ((beq_iff_eq.mp hbeq) ▸ List.mem_map_of_mem (fun r => r.country) hr))
    rw [List.filter_eq_nil_iff.mpr hnot]
    rfl

/-- Grand-total reading of `calculate_duty_for_returned_items`: the first
output component is the summed duty contribution of all returned rows. -/
theorem total_duty_calc (df : List ProcRow) (duty_dict : String → Option ℚ) :
    (calculate_duty_for_returned_items df duty_dict).1
      = ((df.filter (fun r => decide (0 < r.qtyReturned))).map
          (duty_contribution duty_dict)).sum := by
  have key := sum_fiberwise (df.filter (fun r => decide (0 < r.qtyReturned)))
    (fun r => r.country) (duty_contribution duty_dict)
    (dedupFirst ((df.filter (fun r => decide (0 < r.qtyReturned))).map
      (fun r => r.country)))
    (nodup_dedupFirst _)
    (fun a ha => (mem_dedupFirst _ _).mpr (List.mem_map_of_mem _ ha))
  simp only [calculate_duty_for_returned_items, List.map_map]
  rw [← key]
  refine congrArg List.sum (map_congr_fun _ _ _ (fun k _ => ?_))
  show (((df.filter (fun r => decide (0 < r.qtyReturned))).filter
      (fun r => r.country == k)).map (duty_contribution duty_dict)).sum = _
  rw [country_beq_eq_decide]
end MainBusinessLogic

/-- C8 (amended): a returned line whose 4-character goods-code prefix is
absent from the duty-rate mapping does not make the computation fail (the
embedded function is total) and contributes exactly zero: appending such a
line changes neither any country's Total Duty Returned nor the grand total.
The affected goods codes, however, are not counted or reported to the
caller (see the counterexample for that part of the claim). -/
theorem C8_unmapped_goods_code (df : List ProcRow)
    (duty_dict : String → Option ℚ) (row : ProcRow)
    (hnone : duty_dict (take4 row.hsCode) = none) :
    (∀ c : String,
        dutyReturnedFor
            ((MainBusinessLogic.calculate_duty_for_returned_items (df ++ [row])
              duty_dict).2) c
          = dutyReturnedFor
              ((MainBusinessLogic.calculate_duty_for_returned_items df
                duty_dict).2) c)
    ∧ (MainBusinessLogic.calculate_duty_for_returned_items (df ++ [row])
        duty_dict).1
      = (MainBusinessLogic.calculate_duty_for_returned_items df duty_dict).1 := by
  have hzero : duty_contribution duty_dict row = 0 := by
    simp [duty_contribution, hnone]
  constructor
  · intro c
    rw [MainBusinessLogic.dutyReturnedFor_calc, MainBusinessLogic.dutyReturnedFor_calc,
      List.filter_append, List.filter_append]
    by_cases h1 : (0 : ℚ) < row.qtyReturned
    · by_cases h2 : row.country = c
      · simp [h1, h2, hzero]
      · simp [h1, h2]
    · simp [h1]
  · rw [MainBusinessLogic.total_duty_calc, MainBusinessLogic.total_duty_calc,
      List.filter_append]
    by_cases h1 : (0 : ℚ) < row.qtyReturned
    · simp [h1, hzero]
    · simp [h1]

/-- Returned line with the unmapped goods code 99990000. -/
def c8rowA : ProcRow :=
  { mrn := "M1", hsCode := "99990000", country := "DE", qtyImported := 1,
    qtyReturned := 1, unitPrice := 50, consignmentValue := 200, vatRate := 0.19 }

/-- The same returned line with the different unmapped goods code 88880000. -/
def c8rowB : ProcRow :=
  { c8rowA with hsCode := "88880000" }

/-- C8 counterexample (for the reporting part of the claim): two runs whose
inputs differ only in which unmapped goods code is affected produce
identical outputs, so the affected goods codes are not counted or reported
to the caller in any form; the rows still contribute zero duty without
failing. -/
theorem C8_counterexample :
    MainBusinessLogic.calculate_duty_for_returned_items [c8rowA] c2duty
      = MainBusinessLogic.calculate_duty_for_returned_items [c8rowB] c2duty
    ∧ c8rowA.hsCode ≠ c8rowB.hsCode := by
  constructor
  · norm_num [MainBusinessLogic.calculate_duty_for_returned_items, dedupFirst,
      duty_contribution, take4, c8rowA, c8rowB, c2duty]
    decide
  · simp [c8rowA, c8rowB]

/-- C8 witness: appending the unmapped returned line to the concrete mapped
IE line leaves the grand duty total unchanged. -/
theorem C8_unmapped_goods_code_witness :
    (MainBusinessLogic.calculate_duty_for_returned_items ([c2row] ++ [c8rowA])
        c2duty).1
      = (MainBusinessLogic.calculate_duty_for_returned_items [c2row] c2duty).1 :=
  (C8_unmapped_goods_code [c2row] c2duty c8rowA (by decide)).2

/-- In a duty table whose countries are duplicate-free, searching for the
country of a member finds exactly that member. -/
theorem find_country_of_nodup (duty_df : List DutyRow)
    (hd : (duty_df.map (fun d => d.country)).Nodup) (d : DutyRow)
    (hdm : d ∈ duty_df) :
    duty_df.find? (fun x => x.country == d.country) = some d := by
  induction duty_df with
  | nil => cases hdm
  | cons a t ih =>
    have hd2 : (∀ x ∈ t, ¬ x.country = a.country)
        ∧ (t.map (fun x => x.country)).Nodup := by simpa using hd
    rcases List.mem_cons.mp hdm with rfl | hmem
    · exact List.find?_cons_of_pos _ (by simp)
    · have hne : (a.country == d.country) = false :=
        beq_eq_false_iff_ne.mpr (fun he => hd2.1 d hmem he.symm)
      rw [List.find?_cons_of_neg _ (by simp [hne])]
      exact ih hd2.2 hmem

/-- C6: when each country occurs at most once per input table, the refund
merge lists every country of either input exactly once, fills the side
missing a country with zero while preserving the present side, and sets
Total Refund = Total VAT Refund + Total Duty Returned in every output row:
no country is dropped and none is double counted. -/
theorem C6_merge_totality (vat_df : List RetRow) (duty_df : List DutyRow)
    (hv : (vat_df.map (fun v => v.country)).Nodup)
    (hd : (duty_df.map (fun d => d.country)).Nodup) :
    ((MainBusinessLogic.duty_vat_hv_merge vat_df duty_df).map
        (fun m => m.country)).Nodup
    ∧ (∀ c : String,
        c ∈ (MainBusinessLogic.duty_vat_hv_merge vat_df duty_df).map
            (fun m => m.country)
          ↔ c ∈ vat_df.map (fun v => v.country)
            ∨ c ∈ duty_df.map (fun d => d.country))
    ∧ (∀ m ∈ MainBusinessLogic.duty_vat_hv_merge vat_df duty_df,
        m.totalRefund = m.totalVatRefund + m.totalDutyReturned)
    ∧ (∀ v ∈ vat_df, ∀ d ∈ duty_df, v.country = d.country →
        ∃ m ∈ MainBusinessLogic.duty_vat_hv_merge vat_df duty_df,
          m.country = v.country ∧ m.totalVatRefund = v.totalVatRefund
            ∧ m.totalDutyReturned = d.totalDutyReturned)
    ∧ (∀ v ∈ vat_df, v.country ∉ duty_df.map (fun d => d.country) →
        ∃ m ∈ MainBusinessLogic.duty_vat_hv_merge vat_df duty_df,
          m.country = v.country ∧ m.totalVatRefund = v.totalVatRefund
            ∧ m.totalDutyReturned = 0)
    ∧ (∀ d ∈ duty_df, d.country ∉ vat_df.map (fun v => v.country) →
        ∃ m ∈ MainBusinessLogic.duty_vat_hv_merge vat_df duty_df,
          m.country = d.country ∧ m.totalVatRefund = 0
            ∧ m.totalDutyReturned = d.totalDutyReturned) := by
  have hp : ∀ d : DutyRow,
      ((!(vat_df.any (fun v => v.country == d.country))) = true)
        ↔ ∀ v ∈ vat_df, v.country ≠ d.country := by
    intro d
    rw [Bool.not_eq_true', List.any_eq_false]
    constructor
    · intro h v hvm he
      exact h v hvm (beq_iff_eq.mpr he)
    · intro h v hvm hbeq
      exact h v hvm (beq_iff_eq.mp hbeq)
  have hnm : ∀ (c : String),
      c ∉ vat_df.map (fun v => v.country) ↔ ∀ v ∈ vat_df, v.country ≠ c := by
    intro c
    simp [List.mem_map]
  have hcountries :
      (MainBusinessLogic.duty_vat_hv_merge vat_df duty_df).map (fun m => m.country)
        = vat_df.map (fun v => v.country)
          ++ (duty_df.filter
              (fun d => !(vat_df.any (fun v => v.country == d.country)))).map
            (fun d => d.country) := by
    simp only [MainBusinessLogic.duty_vat_hv_merge, List.map_append, List.map_map]
    rfl
  have hrmem : ∀ c : String,
      c ∈ (duty_df.filter
          (fun d => !(vat_df.any (fun v => v.country == d.country)))).map
        (fun d => d.country)
        ↔ c ∈ duty_df.map (fun d => d.country)
          ∧ c ∉ vat_df.map (fun v => v.country) := by
    intro c
    constructor
    · intro hc
      rcases List.mem_map.mp hc with ⟨d, hdf, rfl⟩
      rcases List.mem_filter.mp hdf with ⟨hdd, hpd⟩
      exact ⟨List.mem_map_of_mem _ hdd, (hnm d.country).mpr ((hp d).mp hpd)⟩
    · rintro ⟨hcd, hcv⟩
      rcases List.mem_map.mp hcd with ⟨d, hdd, rfl⟩
      exact List.mem_map_of_mem _ (List.mem_filter.mpr
        ⟨hdd, (hp d).mpr ((hnm d.country).mp hcv)⟩)
  refine ⟨?_, ?_, ?_, ?_, ?_, ?_⟩
  · rw [hcountries, List.nodup_append]
    refine ⟨hv, List.Sublist.nodup (List.Sublist.map _ (List.filter_sublist _)) hd, ?_⟩
    intro c hcv hcr
    exact ((hrmem c).mp hcr).2 hcv
  · intro c
    rw [hcountries]
    rw [List.mem_append, hrmem c]
    constructor
    · rintro (h | ⟨h, _⟩)
      · exact Or.inl h
      · exact Or.inr h
    · rintro (h | h)
      · exact Or.inl h
      · by_cases hcv : c ∈ vat_df.map (fun v => v.country)
        · exact Or.inl hcv
        · exact Or.inr ⟨h, hcv⟩
  · intro m hm
    simp only [MainBusinessLogic.duty_vat_hv_merge] at hm
    rcases List.mem_append.mp hm with hl | hr
    · rcases List.mem_map.mp hl with ⟨v, _, rfl⟩
      rfl
    · rcases List.mem_map.mp hr with ⟨d, _, rfl⟩
      rfl
  · intro v hvm d hdm hcd
    refine ⟨_, List.mem_append_left _ (List.mem_map_of_mem _ hvm), rfl, rfl, ?_⟩
    show ((duty_df.find? (fun x => x.country == v.country)).map
      (fun x => x.totalDutyReturned)).getD 0 = d.totalDutyReturned
    rw [hcd, find_country_of_nodup duty_df hd d hdm]
    rfl
  · intro v hvm hvnot
    refine ⟨_, List.mem_append_left _ (List.mem_map_of_mem _ hvm), rfl, rfl, ?_⟩
    show ((duty_df.find? (fun x => x.country == v.country)).map
      (fun x => x.totalDutyReturned)).getD 0 = 0
    have hnone : duty_df.find? (fun x => x.country == v.country) = none := by
      rw [List.find?_eq_none]
      intro x hx hbeq
      exact hvnot ((beq_iff_eq.mp hbeq) ▸ List.mem_map_of_mem _ hx)
    rw [hnone]
    rfl
  · intro d hdm hdnot
    have hpd : (!(vat_df.any (fun v => v.country == d.country))) = true :=
      (hp d).mpr (fun v hv he => hdnot (he ▸ List.mem_map_of_mem _ hv))
    exact ⟨_, List.mem_append_right _ (List.mem_map_of_mem _
      (List.mem_filter.mpr ⟨hdm, hpd⟩)), rfl, rfl, rfl⟩

/-- Concrete one-row VAT-refund table (DE). -/
def c6vat : List RetRow :=
  [{ country := "DE", vatRate := 0.19, totalReturnedValue := 50,
     totalVatRefund := 9.5 }]

/-- Concrete one-row duty-refund table (FR). -/
def c6duty : List DutyRow :=
  [{ country := "FR", totalReturnedValue := 40, totalDutyReturned := 4 }]

/-- C6 witness: merging the concrete disjoint one-row tables yields
duplicate-free output countries. -/
theorem C6_merge_totality_witness :
    ((MainBusinessLogic.duty_vat_hv_merge c6vat c6duty).map
      (fun m => m.country)).Nodup :=
  (C6_merge_totality c6vat c6duty (by decide) (by decide)).1

/-- A left fold of binary maximum lands on a member of the list. -/
theorem foldl_max_mem (x : ℚ) (xs : List ℚ) : xs.foldl max x ∈ x :: xs := by
  induction xs generalizing x with
  | nil => simp
  | cons a t ih =>
    have h := ih (max x a)
    show t.foldl max (max x a) ∈ x :: a :: t
    rcases List.mem_cons.mp h with hx | hx
    · rcases max_choice x a with hm | hm
      · rw [hx, hm]
        exact List.mem_cons_self _ _
      · rw [hx, hm]
        exact List.mem_cons_of_mem _ (List.mem_cons_self _ _)
    · exact List.mem_cons_of_mem _ (List.mem_cons_of_mem _ hx)
/-- A left fold of binary maximum bounds every member of the list. -/
theorem le_foldl_max (x : ℚ) (xs : List ℚ) : ∀ y ∈ x :: xs, y ≤ xs.foldl max x := by
  induction xs generalizing x with
  | nil =>
    intro y hy
    simp at hy
    simp [hy]
  | cons a t ih =>
    intro y hy
    have hstep : ∀ z ∈ (max x a) :: t, z ≤ t.foldl max (max x a) := ih (max x a)
    rcases List.mem_cons.mp hy with rfl | hy2
    · exact le_trans (le_max_left y a)
        (hstep (max y a) (List.mem_cons_self _ _))
    · rcases List.mem_cons.mp hy2 with rfl | hy3
      · exact le_trans (le_max_right x y)
          (hstep (max x y) (List.mem_cons_self _ _))
      · exact hstep y (List.mem_cons_of_mem _ hy3)

namespace TedBaker

/-- Dictionary lookup over the keyed `filterMap`: for a duplicate-free key
list the lookup returns exactly the per-key optional value. -/
theorem duty_dict_get_filterMap (keys : List String) (f : String → Option ℚ)
    (hnd : keys.Nodup) (k : String) :
    duty_dict_get (keys.filterMap (fun x => (f x).map (fun v => (x, v)))) k
      = if k ∈ keys then f k else none := by
  induction keys with
  | nil => simp [duty_dict_get]
  | cons a rest ih =>
    have hnd2 := List.nodup_cons.mp hnd
    by_cases hak : k = a
    · subst hak
      cases hfa : f k with
      | none =>
        simp only [List.filterMap_cons, hfa, Option.map_none']
        rw [ih hnd2.2]
        simp [hnd2.1, hfa]
      | some v =>
        simp only [List.filterMap_cons, hfa, Option.map_some']
        simp [duty_dict_get, List.find?_cons_of_pos, hfa]
    · cases hfa : f a with
      | none =>
        simp only [List.filterMap_cons, hfa, Option.map_none']
        rw [ih hnd2.2]
        simp [hak]
      | some v =>
        simp only [List.filterMap_cons, hfa, Option.map_some']
        have : duty_dict_get ((a, v) :: rest.filterMap
            (fun x => (f x).map (fun w => (x, w)))) k
            = duty_dict_get (rest.filterMap (fun x => (f x).map (fun w => (x, w)))) k := by
          simp only [duty_dict_get]
          rw [List.find?_cons_of_neg _ (by
            simp only [beq_iff_eq]
            exact fun h => hak h.symm)]
        rw [this, ih hnd2.2]
        simp [hak]

end TedBaker

namespace TedBaker

/-- A goods-code group maps to no rate exactly when no tariff row of the
group parses. -/
theorem max_duty_eq_none_iff (parse_duty_rate : String → Option ℚ)
    (erga : List TariffRow) (k : String) :
    max_duty parse_duty_rate erga k = none
      ↔ ∀ r ∈ erga, take4 r.goodsCode = k → parse_duty_rate r.duty = none := by
  rcases hlist : (erga.filter (fun r => take4 r.goodsCode == k)).filterMap
      (fun r => parse_duty_rate r.duty) with _ | ⟨x, xs⟩
  · simp only [max_duty, hlist]
    constructor
    · intro _ r hr hk
      exact List.filterMap_eq_nil_iff.mp hlist r
        (List.mem_filter.mpr ⟨hr, by simp [hk]⟩)
    · intro _
      trivial
  · simp only [max_duty, hlist]
    constructor
    · intro h
      cases h
    · intro hall
      exfalso
      have hx : x ∈ (erga.filter (fun r => take4 r.goodsCode == k)).filterMap
          (fun r => parse_duty_rate r.duty) := by
        rw [hlist]
        exact List.mem_cons_self x xs
      rcases List.mem_filterMap.mp hx with ⟨r, hrf, hpr⟩
      rcases List.mem_filter.mp hrf with ⟨hre, hbeq⟩
      rw [hall r hre (beq_iff_eq.mp hbeq)] at hpr
      cases hpr

/-- A goods-code group mapping to a rate contains a row parsing to exactly
that rate, and the rate bounds every parsed rate of the group. -/
theorem max_duty_spec (parse_duty_rate : String → Option ℚ)
    (erga : List TariffRow) (k : String) (v : ℚ)
    (h : max_duty parse_duty_rate erga k = some v) :
    (∃ r ∈ erga, take4 r.goodsCode = k ∧ parse_duty_rate r.duty = some v)
    ∧ ∀ r ∈ erga, take4 r.goodsCode = k →
        ∀ w : ℚ, parse_duty_rate r.duty = some w → w ≤ v := by
  rcases hlist : (erga.filter (fun r => take4 r.goodsCode == k)).filterMap
      (fun r => parse_duty_rate r.duty) with _ | ⟨x, xs⟩
  · rw [max_duty, hlist] at h
    cases h
  · rw [max_duty, hlist] at h
    have hv : xs.foldl max x = v := Option.some.inj h
    constructor
    · have hmem := foldl_max_mem x xs
      rw [hv] at hmem
      have hvmem : v ∈ (erga.filter (fun r => take4 r.goodsCode == k)).filterMap
          (fun r => parse_duty_rate r.duty) := by
        rw [hlist]
        exact hmem
      rcases List.mem_filterMap.mp hvmem with ⟨r, hrf, hpr⟩
      rcases List.mem_filter.mp hrf with ⟨hre, hbeq⟩
      exact ⟨r, hre, beq_iff_eq.mp hbeq, hpr⟩
    · intro r hre hk w hw
      have hwmem : w ∈ (erga.filter (fun r => take4 r.goodsCode == k)).filterMap
          (fun r => parse_duty_rate r.duty) :=
        List.mem_filterMap.mpr ⟨r, List.mem_filter.mpr ⟨hre, by simp [hk]⟩, hw⟩
      rw [hlist] at hwmem
      have := le_foldl_max x xs w hwmem
      rw [hv] at this
      exact this

end TedBaker

/-- C10: for every tariff export, every parser and every 4-character key,
the duty-table builder maps the key to no rate exactly when no ERGA OMNES
row of that goods-code group parses (absent, never zero), and maps it to a
rate exactly when that rate is the maximum parsed rate among the ERGA OMNES
rows of the group; rows with any other Origin never contribute. -/
theorem C10_duty_table (parse_duty_rate : String → Option ℚ)
    (df : List TedBaker.TariffRow) (k : String) :
    (TedBaker.duty_dict_get (TedBaker.process_duty_data parse_duty_rate df) k = none
      ↔ ∀ r ∈ df, r.origin = "ERGA OMNES" → take4 r.goodsCode = k →
          parse_duty_rate r.duty = none)
    ∧ (∀ v : ℚ,
        TedBaker.duty_dict_get (TedBaker.process_duty_data parse_duty_rate df) k
            = some v →
          (∃ r ∈ df, r.origin = "ERGA OMNES" ∧ take4 r.goodsCode = k
            ∧ parse_duty_rate r.duty = some v)
          ∧ ∀ r ∈ df, r.origin = "ERGA OMNES" → take4 r.goodsCode = k →
              ∀ w : ℚ, parse_duty_rate r.duty = some w → w ≤ v) := by
  have herga : ∀ r : TedBaker.TariffRow,
      r ∈ df.filter (fun r => r.origin == "ERGA OMNES")
        ↔ (r ∈ df ∧ r.origin = "ERGA OMNES") := by
    intro r
    rw [List.mem_filter]
    simp
  have hget : TedBaker.duty_dict_get (TedBaker.process_duty_data parse_duty_rate df) k
      = if k ∈ dedupFirst ((df.filter (fun r => r.origin == "ERGA OMNES")).map
          (fun r => take4 r.goodsCode))
        then TedBaker.max_duty parse_duty_rate
          (df.filter (fun r => r.origin == "ERGA OMNES")) k
        else none := by
    simp only [TedBaker.process_duty_data]
    exact TedBaker.duty_dict_get_filterMap _ _ (nodup_dedupFirst _) k
  by_cases hk : k ∈ dedupFirst ((df.filter (fun r => r.origin == "ERGA OMNES")).map
      (fun r => take4 r.goodsCode))
  · rw [hget, if_pos hk]
    constructor
    · rw [TedBaker.max_duty_eq_none_iff]
      constructor
      · intro h r hrd ho hk4
        exact h r ((herga r).mpr ⟨hrd, ho⟩) hk4
      · intro h r hre hk4
        obtain ⟨hrd, ho⟩ := (herga r).mp hre
        exact h r hrd ho hk4
    · intro v hv
      obtain ⟨⟨r, hre, hk4, hpr⟩, hub⟩ :=
        TedBaker.max_duty_spec parse_duty_rate _ k v hv
      obtain ⟨hrd, ho⟩ := (herga r).mp hre
      exact ⟨⟨r, hrd, ho, hk4, hpr⟩, fun r2 h2 ho2 hk2 w hw =>
        hub r2 ((herga r2).mpr ⟨h2, ho2⟩) hk2 w hw⟩
  · rw [hget, if_neg hk]
    refine ⟨⟨fun _ r hrd ho hk4 => absurd ((mem_dedupFirst _ _).mpr
      (List.mem_map.mpr ⟨r, (herga r).mpr ⟨hrd, ho⟩, hk4⟩)) hk, fun _ => rfl⟩, ?_⟩
    intro v hv
    cases hv

/-- Concrete tariff parser: recognises the two literal percentage strings
of the concrete export below. -/
def c10parse : String → Option ℚ := fun s =>
  if s = "12.000 %" then some 0.12 else if s = "8%" then some 0.08 else none

/-- Concrete tariff export: two parseable ERGA OMNES groups, one
unparseable ERGA OMNES group (9999) and one row with another Origin. -/
def c10df : List TedBaker.TariffRow :=
  [{ goodsCode := "61091000", origin := "ERGA OMNES", duty := "12.000 %" },
   { goodsCode := "61092000", origin := "ERGA OMNES", duty := "8%" },
   { goodsCode := "99991000", origin := "ERGA OMNES", duty := "NAR" },
   { goodsCode := "88881000", origin := "OTHER", duty := "12.000 %" }]

/-- C10 witness: the 9999 group, whose only row does not parse, is absent
from the built mapping (not stored as zero). -/
theorem C10_duty_table_witness :
    TedBaker.duty_dict_get (TedBaker.process_duty_data c10parse c10df) "9999"
      = none :=
  (C10_duty_table c10parse c10df "9999").1.mpr (by decide)

/-- Modelled from the spec: "invoice_amount = net_IOSS + net_OSS −
domestic_VAT_return_for_returned_domestic_parcels + total_commission"
(section 4.5). -/
def invoice_amount_spec (net_IOSS net_OSS domestic_VAT_return total_commission : ℚ) : ℚ :=
  net_IOSS + net_OSS - domestic_VAT_return + total_commission

/-- Modelled from the spec: "payback_amount = total_duty_refund +
reclaimable_broker_paid_VAT" (section 4.5). -/
def payback_amount_spec (total_duty_refund reclaimable_broker_paid_VAT : ℚ) : ℚ :=
  total_duty_refund + reclaimable_broker_paid_VAT

/-- C1 (amended): the settlement step produces
invoice_amount = net_IOSS + net_OSS + total_commission, with no
domestic-VAT-return subtraction, and
payback_amount = total_duty_refund + HV VAT refunds (NL-declared and
IE-declared) + reclaimable_broker_paid_VAT, where total_commission is
0.2 of the NL-declared refunds plus 0.3 of the IE VAT refunds plus the
low-value fee. -/
theorem C1_settlement_formulas (data : SummaryData) :
    ProCarrier.amountFor (ProCarrier.generate_summary_table data)
        "Amount to invoice Pro Carrier:"
      = some ((data.import_ioss - data.return_ioss)
          + ((data.oss_hv_vat_df.map (fun r => r.totalVatToPay)).sum
              - (data.oss_hv_vat_df.map (fun r => r.totalVatRefund)).sum)
          + ((((data.nl_refunds.map (fun r => r.totalDutyReturned)).sum
                + (data.nl_refunds.map (fun r => r.totalVatRefund)).sum) * 0.2)
              + ((data.ie_refunds.map (fun r => r.totalVatRefund)).sum * 0.3)
              + data.lv_dr_fee))
    ∧ ProCarrier.amountFor (ProCarrier.generate_summary_table data)
        "Amount to be paid to Pro Carrier:"
      = some ((data.nl_refunds.map (fun r => r.totalDutyReturned)).sum
          + (data.ie_refunds.map (fun r => r.totalVatRefund)).sum
          + (data.nl_refunds.map (fun r => r.totalVatRefund)).sum
          + data.vat_to_return_from_nl_for_import) :=
  ⟨rfl, rfl⟩

/-- Aggregate inputs in which every figure is zero except an IE high-value
VAT refund of 10. -/
def c1data : SummaryData :=
  { import_ioss := 0, return_ioss := 0, lv_dr_fee := 0,
    vat_paid_during_import_to_nl := 0, vat_to_return_from_nl_for_import := 0,
    oss_hv_vat_df := [], nl_refunds := [],
    ie_refunds := [{ country := "IE", vatRate := 0.23,
                     totalReturnedValue := 50, totalVatRefund := 10 }] }

/-- C1 counterexample: on inputs where the total duty refund and the
reclaimable broker-paid VAT are both 0 but an IE high-value VAT refund of 10
exists, the claimed payback formula gives 0, yet the settlement step writes
10 as the amount to be paid back: the code adds the HV VAT refunds to the
payback, so the claimed formula does not describe it. -/
theorem C1_counterexample :
    ProCarrier.amountFor (ProCarrier.generate_summary_table c1data)
        "Amount to be paid to Pro Carrier:" = some 10
    ∧ payback_amount_spec 0 0 = 0
    ∧ ((10 : ℚ) ≠ 0) := by
  refine ⟨?_, by norm_num [payback_amount_spec], by norm_num⟩
  norm_num [ProCarrier.amountFor, ProCarrier.generate_summary_table, c1data,
    List.find?]
  decide
